import Mathlib

/-!
A verification development for eldim's configuration model
(`config/config.go` of github.com/daknob/eldim, module declared at Go 1.14).

The Go code is shallowly embedded: structs become Lean structures, methods
become Lean functions, `error` results become `Option`-valued error codes
(`none` = the Go method returned `nil`, `some e` = it returned the error
described by `e`), and the early-return sequencing of `Validate` becomes a
first-`some`-wins chain.

External collaborators (the file system, YAML decoding, the age recipient
parsers from `filippo.io/age`, and the per-protocol backend validators from
`internal/{swift,gcs,s3}`, which are not part of the sources at hand) are
modelled as oracles carried in an `Env` record, respectively as abstract
outcome fields; everything else is translated from the source.

`net.ParseIP` and `net.IP.String` from the Go 1.14 standard library are
embedded concretely (the code's client validation and duplicate detection
depend on their exact behaviour): `dtoi`, `xtoi`, `parseIPv4`, `parseIPv6`,
zone splitting, `IP.To4` and RFC 5952 rendering are translated from
Go 1.14 `net/ip.go`. IP addresses are byte lists (4-in-6 form, 16 bytes),
and Go strings that only ever hold ASCII (rendered addresses) are `List Char`.
-/

set_option maxRecDepth 4000

namespace Eldim

/-! ## Go 1.14 `net/ip.go`: parsing -/

/-- `big` from Go `net/parse.go`: "Bigger than we need, not too big to worry
about overflow". -/
def parseBig : Nat := 0xFFFFFF

/-- Go `dtoi`: read a decimal prefix; fails if there are no digits or the
accumulated value ever reaches `big`. Returns the value and the rest of the
string. (Go returns `(n, i, ok)`; all callers treat `ok = false` as failure,
so `Option` is faithful.) -/
def dtoi (s : List Char) : Option (Nat × List Char) :=
  let ds := s.takeWhile Char.isDigit
  if ds.isEmpty then none
  else
    let n := ds.foldl (fun a c => a * 10 + (c.toNat - 48)) 0
    if n ≥ parseBig then none else some (n, s.dropWhile Char.isDigit)

/-- Hexadecimal digit test, as in Go `xtoi`. -/
def isHexDigitGo (c : Char) : Bool :=
  c.isDigit || ('a' ≤ c && c ≤ 'f') || ('A' ≤ c && c ≤ 'F')

/-- Value of a hexadecimal digit. -/
def hexVal (c : Char) : Nat :=
  if c.isDigit then c.toNat - 48
  else if 'a' ≤ c ∧ c ≤ 'f' then c.toNat - 87
  else c.toNat - 55

/-- Go `xtoi`: read a hexadecimal prefix; fails if there are no hex digits or
the accumulated value ever reaches `big`. -/
def xtoi (s : List Char) : Option (Nat × List Char) :=
  let ds := s.takeWhile isHexDigitGo
  if ds.isEmpty then none
  else
    let n := ds.foldl (fun a c => a * 16 + hexVal c) 0
    if n ≥ parseBig then none else some (n, s.dropWhile isHexDigitGo)

/-- One field of a dotted quad, as consumed by the loop body of Go
`parseIPv4`: when `first = false` a leading `'.'` is required and consumed,
then `dtoi` must produce a value `≤ 0xFF`. The `s = []` guard mirrors the
"Missing octets" check. -/
def parseV4Field (first : Bool) (s : List Char) : Option (Nat × List Char) :=
  if s.isEmpty then none
  else
    match (if first then some s else match s with
            | '.' :: t => some t
            | _ => none) with
    | none => none
    | some s1 =>
      match dtoi s1 with
      | none => none
      | some (n, rest) => if n > 0xFF then none else some (n, rest)

/-- The 16-byte representation of an IPv4 address, Go `IPv4(a,b,c,d)`
(`v4InV6Prefix ++ [a,b,c,d]`). -/
def v4InV6 (a b c d : Nat) : List Nat :=
  [0, 0, 0, 0, 0, 0, 0, 0, 0, 0, 0xFF, 0xFF, a, b, c, d]

/-- Go `parseIPv4`: four decimal fields separated by `'.'`, nothing left
over. Returns the 16-byte (4-in-6) representation, as `IPv4(...)` does. -/
def parseIPv4Go (s : List Char) : Option (List Nat) :=
  match parseV4Field true s with
  | none => none
  | some (a, s) =>
    match parseV4Field false s with
    | none => none
    | some (b, s) =>
      match parseV4Field false s with
      | none => none
      | some (c, s) =>
        match parseV4Field false s with
        | none => none
        | some (d, s) => if s.isEmpty then some (v4InV6 a b c d) else none

/-- The loop of Go `parseIPv6`. `fuel` counts the remaining 16-bit groups
(loop condition `i < IPv6len` with `i = acc.length`), `acc` the bytes filled
in so far, `ell` the byte position of a `::` already seen. Returns the final
bytes and ellipsis position; `none` is Go's `return nil`. -/
def parseIPv6Loop : Nat → List Char → List Nat → Option Nat →
    Option (List Nat × Option Nat)
  | 0, s, acc, ell => if s.isEmpty then some (acc, ell) else none
  | fuel + 1, s, acc, ell =>
    match xtoi s with
    | none => none
    | some (n, rest) =>
      if n > 0xFFFF then none
      else if rest.head? = some '.' then
        -- trailing IPv4 in an IPv6 address; re-parse from `s`
        if ell.isNone ∧ acc.length ≠ 12 then none
        else if acc.length + 4 > 16 then none
        else
          match parseIPv4Go s with
          | none => none
          | some ip4 => some (acc ++ ip4.drop 12, ell)
      else
        let acc := acc ++ [n / 256, n % 256]
        if rest.isEmpty then some (acc, ell)
        else if rest.head? ≠ some ':' ∨ rest.length = 1 then none
        else
          let rest := rest.tail
          if rest.head? = some ':' then
            if ell.isSome then none
            else
              let ell := some acc.length
              let rest := rest.tail
              if rest.isEmpty then some (acc, ell)
              else parseIPv6Loop fuel rest acc ell
          else parseIPv6Loop fuel rest acc ell

/-- Go `parseIPv6`: optional leading `::`, the group loop, then the "must
have used entire string" check and ellipsis expansion. -/
def parseIPv6Go (s : List Char) : Option (List Nat) :=
  let lead := s.take 2 = [':', ':']
  let s1 := if lead then s.drop 2 else s
  let ell : Option Nat := if lead then some 0 else none
  if lead ∧ s1.isEmpty then some (List.replicate 16 0)
  else
    match parseIPv6Loop 8 s1 [] ell with
    | none => none
    | some (acc, ell) =>
      if acc.length < 16 then
        match ell with
        | none => none
        | some e =>
          some (acc.take e ++ List.replicate (16 - acc.length) 0 ++ acc.drop e)
      else if ell.isSome then none
      else some acc

/-- Go `splitHostZone`: cut at the last `'%'` when its index is positive,
keeping the host part (the zone is discarded by `ParseIP`). -/
def splitHostZone (s : List Char) : List Char :=
  match ((List.range s.length).filter fun i => s.get? i = some '%').getLast? with
  | some i => if 0 < i then s.take i else s
  | none => s

/-- The dispatch loop of Go 1.14 `net.ParseIP`: the first `'.'` or `':'`
decides between `parseIPv4` and `parseIPv6Zone`. `some true` = saw `'.'`. -/
def ipDispatch : List Char → Option Bool
  | [] => none
  | c :: rest =>
    if c = '.' then some true else if c = ':' then some false else ipDispatch rest

/-- Go 1.14 `net.ParseIP`. `none` is Go's `nil` result. -/
def parseIPGo (s : String) : Option (List Nat) :=
  match ipDispatch s.data with
  | some true => parseIPv4Go s.data
  | some false => parseIPv6Go (splitHostZone s.data)
  | none => none

/-! ## Go 1.14 `net/ip.go`: rendering (`IP.String`) -/

/-- Go `IP.To4` succeeds on a 16-byte address iff bytes 0–9 are zero and
bytes 10–11 are `0xFF` (the 4-in-6 prefix). -/
def isV4InV6 (b : List Nat) : Bool :=
  b.length = 16 ∧ (b.take 10).all (· = 0) ∧
    b.get? 10 = some 0xFF ∧ b.get? 11 = some 0xFF

/-- Decimal rendering of one byte (Go `uitoa`). -/
def decChars (n : Nat) : List Char := Nat.toDigits 10 n

/-- Lowercase hexadecimal rendering without leading zeros (Go `appendHex`). -/
def hexChars (n : Nat) : List Char := Nat.toDigits 16 n

/-- Join chunks with a single separator character. -/
def joinSep (sep : Char) : List (List Char) → List Char
  | [] => []
  | [x] => x
  | x :: xs => x ++ sep :: joinSep sep xs

/-- Dotted-quad rendering of four bytes. -/
def dottedQuad (b : List Nat) : List Char := joinSep '.' (b.map decChars)

/-- The 16-bit groups of a 16-byte address. -/
def v6Groups (b : List Nat) : List Nat :=
  (List.range 8).map fun i => b.getD (2 * i) 0 * 256 + b.getD (2 * i + 1) 0

/-- Length of the run of zero groups starting at group index `i`. -/
def zeroRunFrom (gs : List Nat) (i : Nat) : Nat :=
  ((gs.drop i).takeWhile (· = 0)).length

/-- The `e0`/`e1` computation of Go `IP.String`: the leftmost longest run of
zero 16-bit groups, kept only if it spans more than one group. Returns the
(group-index) start and length. -/
def bestZeroRun (gs : List Nat) : Option (Nat × Nat) :=
  let cands := (List.range gs.length).map fun i => (i, zeroRunFrom gs i)
  let best := cands.foldl (fun b c => if c.2 > b.2 then c else b) (0, 0)
  if best.2 ≥ 2 then some best else none

/-- RFC 5952 rendering of a 16-byte IPv6 address, as in Go `IP.String`:
lowercase hex groups, `::` for the chosen zero run. -/
def v6Chars (b : List Nat) : List Char :=
  let gs := v6Groups b
  match bestZeroRun gs with
  | none => joinSep ':' (gs.map hexChars)
  | some (e0, len) =>
    joinSep ':' ((gs.take e0).map hexChars) ++ ':' :: ':' ::
      joinSep ':' ((gs.drop (e0 + len)).map hexChars)

/-- Go `IP.String` restricted to the shapes our parser produces: a parsed
address is always 16 bytes, so the cases are 4-in-6 (rendered as a dotted
quad, via `To4`) and general IPv6. An empty byte list renders as in Go. -/
def ipChars (b : List Nat) : List Char :=
  if b.isEmpty then ['<', 'n', 'i', 'l', '>']
  else if isV4InV6 b then dottedQuad (b.drop 12)
  else v6Chars b

/-- Go `IP.String` on a possibly-`nil` address: `nil.String() = "<nil>"`. -/
def ipCharsOpt : Option (List Nat) → List Char
  | none => ['<', 'n', 'i', 'l', '>']
  | some b => ipChars b

/-! ## `config/config.go`: the client data model -/

/-- `ClientConfig` (config.go:270–275). -/
structure ClientConfig where
  clientName : String
  ipv4Addr : List String
  ipv6Addr : List String
  password : String
deriving DecidableEq

/-- `ClientConfig.IPv4` (config.go:335–342): parse every entry of the IPv4
list with `net.ParseIP` (`none` = Go's `nil` entry). -/
def ClientConfig.IPv4 (client : ClientConfig) : List (Option (List Nat)) :=
  client.ipv4Addr.map parseIPGo

/-- `ClientConfig.IPv6` (config.go:347–354). -/
def ClientConfig.IPv6 (client : ClientConfig) : List (Option (List Nat)) :=
  client.ipv6Addr.map parseIPGo

/-- `ClientConfig.Name` (config.go:325–330). The Go method has a pointer
receiver and overwrites `ClientName` when it is empty, so it returns both
the name and the updated receiver. -/
def ClientConfig.Name (client : ClientConfig) : String × ClientConfig :=
  if client.clientName = "" then
    ("Unnamed Client", { client with clientName := "Unnamed Client" })
  else (client.clientName, client)

/-- The errors `ClientConfig.Validate` can produce, in source order.
The payload of the list-typing errors is the rendered address from the
`%s` in the Go format string. -/
inductive ClientErr where
  | noName
  | invalidIP
  | nonIPv4InList (rendered : List Char)
  | nonIPv6InList (rendered : List Char)
  | noAuthMethod
  | passwordTooShort
  | passwordTooLong
deriving DecidableEq

/-- First-`some`-wins sequencing of client checks: Go's early `return err`
inside `ClientConfig.Validate`. -/
def orC : Option ClientErr → Option ClientErr → Option ClientErr
  | some e, _ => some e
  | none, b => b

/-- `ClientConfig.Validate` (config.go:281–320), translated check by check
in source order, first error wins: name non-empty; no entry of
`IPv6() ++ IPv4()` is `nil`; every IPv4-list entry renders (via `IP.String`)
with a `'.'`; every IPv6-list entry renders with a `':'` and no `'.'`; at
least one of password/IPv4/IPv6 present; password, when set, has byte
length in [32,128] (Go `len` counts bytes). -/
def ClientConfig.Validate (client : ClientConfig) : Option ClientErr :=
  if client.clientName = "" then some .noName
  else
    orC ((client.IPv6 ++ client.IPv4).findSome? fun ip =>
        if ip.isNone then some ClientErr.invalidIP else none)
      (orC (client.IPv4.findSome? fun v4 =>
          if ¬ (ipCharsOpt v4).contains '.' then
            some (ClientErr.nonIPv4InList (ipCharsOpt v4)) else none)
        (orC (client.IPv6.findSome? fun v6 =>
            if ¬ (ipCharsOpt v6).contains ':' ∨ (ipCharsOpt v6).contains '.' then
              some (ClientErr.nonIPv6InList (ipCharsOpt v6)) else none)
          (if client.password = "" ∧ client.IPv4.length = 0 ∧
              client.IPv6.length = 0 then some .noAuthMethod
           else if client.password.utf8ByteSize < 32 ∧ client.password ≠ "" then
             some .passwordTooShort
           else if client.password.utf8ByteSize > 128 then some .passwordTooLong
           else none)))

/-! ## `config/config.go`: the process-wide configuration -/

/-- Modelled from the spec: the per-protocol backend configuration types and
their `Validate`/`Name` methods live in `internal/swift`, `internal/gcs` and
`internal/s3`, which are not among the sources at hand. Per the spec each
backend "carries protocol-specific credentials/endpoint plus a display name"
and is "validated independently at startup", so we keep the display name and
abstract the outcome of its independent validation (`none` = valid,
`some msg` = the error it reports). -/
structure BackendConfig where
  name : String
  validateErr : Option String
deriving DecidableEq

/-- `Config` (config.go:26–55). The three backend lists use the abstract
`BackendConfig`; the nested `Encryption` struct is flattened into its two
lists. -/
structure Config where
  listenPort : Int
  serverTokens : Bool
  maxUploadRAM : Int
  tlsChainPath : String
  tlsKeyPath : String
  swiftBackends : List BackendConfig
  gcsBackends : List BackendConfig
  s3Backends : List BackendConfig
  clientFile : String
  encryptionKey : String
  ageID : List String
  ageSSH : List String
  prometheusEnabled : Bool
  prometheusAuthUser : String
  prometheusAuthPass : String

/-- The external collaborators `Config.Validate` consults, as oracles:
`os.Open`/`File.Close` on a path, `ioutil.ReadFile` (returning the file's
contents), `yaml.Unmarshal` of those contents into a `[]ClientConfig`, and
the two age recipient parsers from `filippo.io/age` (`true` = parses). -/
structure Env where
  openOk : String → Bool
  closeOk : String → Bool
  readFile : String → Option String
  yamlClients : String → Option (List ClientConfig)
  ageIDOk : String → Bool
  ageSSHOk : String → Bool

/-- The errors `Config.Validate` can produce, in source order (one
constructor per `return fmt.Errorf` site; payloads are the values
interpolated into the format string). -/
inductive ConfErr where
  | portNegative
  | portTooHigh
  | tlsChainMissing
  | tlsChainOpenFail
  | tlsChainCloseFail
  | tlsKeyMissing
  | tlsKeyOpenFail
  | tlsKeyCloseFail
  | swiftBackendInvalid (name : String) (msg : String)
  | gcsBackendInvalid (name : String) (msg : String)
  | s3BackendInvalid (name : String) (msg : String)
  | noBackends
  | maxUploadRAMNotPositive
  | encryptionKeyDeprecated
  | noAgeKeys
  | ageIDParseFail (r : String)
  | ageSSHParseFail (r : String)
  | promUserMissing
  | promUserBadFormat
  | promPassMissing
  | promPassBadFormat
  | noClientFile
  | clientFileReadFail
  | clientFileYAMLFail
  | noClients
  | clientInvalid (name : String) (oneBasedIndex : Nat) (e : ClientErr)
  | duplicateName (oneBasedIndex : Nat) (name : String)
  | duplicatePassword (oneBasedIndex : Nat) (name : String)
  | duplicateIP (name : String) (oneBasedIndex : Nat) (rendered : List Char)
deriving DecidableEq

/-- First-`some`-wins sequencing of two checks: Go's early `return err`. -/
def orE : Option ConfErr → Option ConfErr → Option ConfErr
  | some e, _ => some e
  | none, b => b

/-- config.go:62–68: the listening-port checks. -/
def ckPort (conf : Config) : Option ConfErr :=
  if conf.listenPort < 0 then some .portNegative
  else if conf.listenPort > 65535 then some .portTooHigh
  else none

/-- config.go:70–81: TLS chain path set, file opens, file closes. -/
def ckTLSChain (env : Env) (conf : Config) : Option ConfErr :=
  if conf.tlsChainPath = "" then some .tlsChainMissing
  else if ¬ env.openOk conf.tlsChainPath then some .tlsChainOpenFail
  else if ¬ env.closeOk conf.tlsChainPath then some .tlsChainCloseFail
  else none

/-- config.go:83–94: TLS key path set, file opens, file closes. -/
def ckTLSKey (env : Env) (conf : Config) : Option ConfErr :=
  if conf.tlsKeyPath = "" then some .tlsKeyMissing
  else if ¬ env.openOk conf.tlsKeyPath then some .tlsKeyOpenFail
  else if ¬ env.closeOk conf.tlsKeyPath then some .tlsKeyCloseFail
  else none

/-- config.go:97–102: each Swift backend's own validation, first failure
wins, wrapped with the backend's display name. -/
def ckSwift (conf : Config) : Option ConfErr :=
  conf.swiftBackends.findSome? fun b =>
    b.validateErr.map fun msg => ConfErr.swiftBackendInvalid b.name msg

/-- config.go:103–108: each GCS backend's own validation. -/
def ckGCS (conf : Config) : Option ConfErr :=
  conf.gcsBackends.findSome? fun b =>
    b.validateErr.map fun msg => ConfErr.gcsBackendInvalid b.name msg

/-- config.go:109–114: each S3 backend's own validation. -/
def ckS3 (conf : Config) : Option ConfErr :=
  conf.s3Backends.findSome? fun b =>
    b.validateErr.map fun msg => ConfErr.s3BackendInvalid b.name msg

/-- config.go:116–119: at least one backend across the three lists. -/
def ckBackendCount (conf : Config) : Option ConfErr :=
  if conf.swiftBackends.length + conf.gcsBackends.length +
      conf.s3Backends.length = 0 then some .noBackends
  else none

/-- config.go:121–124: positive upload-memory ceiling. -/
def ckRAM (conf : Config) : Option ConfErr :=
  if conf.maxUploadRAM ≤ 0 then some .maxUploadRAMNotPositive else none

/-- config.go:126–129: the deprecated single encryption key must be absent. -/
def ckEncKey (conf : Config) : Option ConfErr :=
  if conf.encryptionKey ≠ "" then some .encryptionKeyDeprecated else none

/-- config.go:130–132: at least one age recipient across the two lists. -/
def ckAgeCount (conf : Config) : Option ConfErr :=
  if conf.ageID.length + conf.ageSSH.length = 0 then some .noAgeKeys else none

/-- config.go:133–138: every `age-id` entry parses as an X25519 recipient. -/
def ckAgeID (env : Env) (conf : Config) : Option ConfErr :=
  conf.ageID.findSome? fun r =>
    if ¬ env.ageIDOk r then some (ConfErr.ageIDParseFail r) else none

/-- config.go:139–144: every `age-ssh` entry parses as an SSH recipient. -/
def ckAgeSSH (env : Env) (conf : Config) : Option ConfErr :=
  conf.ageSSH.findSome? fun r =>
    if ¬ env.ageSSHOk r then some (ConfErr.ageSSHParseFail r) else none

/-- The byte-regexp `^[a-zA-Z0-9]{20,128}$` of config.go:152/158. On char
lists this is: every char is ASCII alphanumeric and the length is in
[20,128] (an all-alphanumeric string is all-ASCII, so its byte length and
char length agree; any non-ASCII byte fails the character class). -/
def promCredOk (s : String) : Bool :=
  20 ≤ s.length && s.length ≤ 128 && s.data.all fun c => c.isAlpha || c.isDigit

/-- config.go:146–161: the Prometheus Basic-Auth checks, only when metrics
are enabled. -/
def ckProm (conf : Config) : Option ConfErr :=
  if conf.prometheusEnabled then
    if conf.prometheusAuthUser = "" then some .promUserMissing
    else if ¬ promCredOk conf.prometheusAuthUser then some .promUserBadFormat
    else if conf.prometheusAuthPass = "" then some .promPassMissing
    else if ¬ promCredOk conf.prometheusAuthPass then some .promPassBadFormat
    else none
  else none

/-- The canonical renderings of one client's addresses in the order the
duplicate-IP loop of config.go:218 visits them: `append(c.IPv6(), c.IPv4()...)`,
each through `ip.String()`. -/
def canonIPs (c : ClientConfig) : List (List Char) :=
  (c.IPv6 ++ c.IPv4).map ipCharsOpt

/-- config.go:191–196: validate clients individually, first failure wins,
wrapped with the client's `Name()` and one-based index. -/
def clientsLoop : Nat → List ClientConfig → Option ConfErr
  | _, [] => none
  | i, c :: rest =>
    match c.Validate with
    | some e => some (ConfErr.clientInvalid c.Name.1 (i + 1) e)
    | none => clientsLoop (i + 1) rest

/-- The inner loop of config.go:218–223: walk one client's rendered
addresses against the accumulated `ipSet`, failing on the first address
already present, otherwise returning the grown set. -/
def ipDupLoop : List (List Char) → List (List Char) →
    Except (List Char) (List (List Char))
  | [], seen => .ok seen
  | ip :: rest, seen =>
    if ip ∈ seen then .error ip else ipDupLoop rest (ip :: seen)

/-- config.go:198–224: the duplicate name / password / IP loop, with the
three accumulated sets (Go `map[string]bool`, modelled as membership lists). -/
def dupLoop : Nat → List ClientConfig → List String → List String →
    List (List Char) → Option ConfErr
  | _, [], _, _, _ => none
  | i, c :: rest, nameSet, passSet, ipSet =>
    if c.Name.1 ∈ nameSet then some (ConfErr.duplicateName (i + 1) c.Name.1)
    else if c.password ≠ "" ∧ c.password ∈ passSet then
      some (ConfErr.duplicatePassword (i + 1) c.Name.1)
    else
      match ipDupLoop (canonIPs c) ipSet with
      | .error ip => some (ConfErr.duplicateIP c.Name.1 (i + 1) ip)
      | .ok ipSet1 =>
        dupLoop (i + 1) rest (c.Name.1 :: nameSet)
          (if c.password = "" then passSet else c.password :: passSet) ipSet1

/-- config.go:163–224: the whole client-roster section — client file path
set, file readable, YAML decodes, at least one client, each client valid,
then the duplicate checks. -/
def ckClients (env : Env) (conf : Config) : Option ConfErr :=
  if conf.clientFile = "" then some .noClientFile
  else
    match env.readFile conf.clientFile with
    | none => some .clientFileReadFail
    | some fc =>
      match env.yamlClients fc with
      | none => some .clientFileYAMLFail
      | some clients =>
        if clients.length = 0 then some .noClients
        else orE (clientsLoop 0 clients) (dupLoop 0 clients [] [] [])

/-- `Config.Validate` (config.go:61–227): the checks above in source order,
first error wins (each Go paragraph returns its error immediately). -/
def Config.Validate (env : Env) (conf : Config) : Option ConfErr :=
  orE (ckPort conf) (orE (ckTLSChain env conf) (orE (ckTLSKey env conf)
    (orE (ckSwift conf) (orE (ckGCS conf) (orE (ckS3 conf)
      (orE (ckBackendCount conf) (orE (ckRAM conf) (orE (ckEncKey conf)
        (orE (ckAgeCount conf) (orE (ckAgeID env conf) (orE (ckAgeSSH env conf)
          (orE (ckProm conf) (ckClients env conf)))))))))))))

/-- The checks of `Config.Validate` in the order the source performs them. -/
def checks (env : Env) (conf : Config) : List (Option ConfErr) :=
  [ckPort conf, ckTLSChain env conf, ckTLSKey env conf, ckSwift conf,
   ckGCS conf, ckS3 conf, ckBackendCount conf, ckRAM conf, ckEncKey conf,
   ckAgeCount conf, ckAgeID env conf, ckAgeSSH env conf, ckProm conf,
   ckClients env conf]

/-- The first `n` checks of `Config.Validate` all pass. -/
def prefixOk (env : Env) (conf : Config) (n : Nat) : Prop :=
  ∀ x ∈ (checks env conf).take n, x = none

instance (env : Env) (conf : Config) (n : Nat) : Decidable (prefixOk env conf n) :=
  inferInstanceAs (Decidable (∀ x ∈ (checks env conf).take n, x = none))

/-- The part of `Config.Validate` that loads the client roster
(config.go:167–183): client file path set, read, YAML-decoded. -/
def loadClients (env : Env) (conf : Config) : Option (List ClientConfig) :=
  if conf.clientFile = "" then none
  else
    match env.readFile conf.clientFile with
    | none => none
    | some fc => env.yamlClients fc

/-! ## Helper lemmas -/

lemma orE_none_left (b : Option ConfErr) : orE none b = b := rfl

lemma orE_none_right (a : Option ConfErr) : orE a none = a := by
  cases a <;> rfl

lemma orE_eq_none_iff (a b : Option ConfErr) :
    orE a b = none ↔ a = none ∧ b = none := by
  cases a <;> simp [orE]

lemma orE_eq_findSome (a : Option ConfErr) (l : List (Option ConfErr)) :
    orE a (l.findSome? id) = (a :: l).findSome? id := by
  cases a <;> simp [orE, List.findSome?_cons]

/-- `Config.Validate` is the first `some` of its checks, in order. -/
lemma validate_eq_findSome (env : Env) (conf : Config) :
    Config.Validate env conf = (checks env conf).findSome? id := by
  simp only [checks, ← orE_eq_findSome, List.findSome?_nil, orE_none_right]
  rfl

/-- `Config.Validate` succeeds iff every single check passes. -/
lemma validate_eq_none_iff (env : Env) (conf : Config) :
    Config.Validate env conf = none ↔ ∀ x ∈ checks env conf, x = none := by
  simp only [Config.Validate, orE_eq_none_iff, checks, List.forall_mem_cons]
  simp [and_assoc]

/-- Dropping an all-`none` prefix does not change the first `some`. -/
lemma findSome_eq_of_take_none (l : List (Option ConfErr)) (n : Nat)
    (h : ∀ x ∈ l.take n, x = none) :
    l.findSome? id = (l.drop n).findSome? id := by
  induction n generalizing l with
  | zero => simp
  | succ n ih =>
    cases l with
    | nil => simp
    | cons a t =>
      have ha : a = none := h a (by simp)
      have ht : ∀ x ∈ t.take n, x = none := fun x hx =>
        h x (by simp [List.take_succ_cons, hx])
      simp [ha, List.findSome?_cons, ih t ht]

/-- Under a passing prefix of length `n`, `Config.Validate` equals the
first `some` of the remaining checks. -/
lemma validate_eq_drop (env : Env) (conf : Config) (n : Nat)
    (h : prefixOk env conf n) :
    Config.Validate env conf = ((checks env conf).drop n).findSome? id := by
  rw [validate_eq_findSome, findSome_eq_of_take_none _ n h]

/-! ## C3: first-error-wins, in documented order -/

/-- C3. `Config.Validate` performs its checks in the documented source
order — listening port, TLS chain file, TLS key file, each Swift / GCS / S3
backend's validation, the at-least-one-backend count, the upload-memory
ceiling, the deprecated encryption-key field, the age recipient count and
the two recipient parse loops, the metrics Basic-Auth block, and finally the
client-roster section — and it returns the error of the earliest failing
check (the first `some` in that list), never an accumulated list of errors. -/
theorem c3_first_error_wins (env : Env) (conf : Config) :
    Config.Validate env conf =
      ([ckPort conf, ckTLSChain env conf, ckTLSKey env conf, ckSwift conf,
        ckGCS conf, ckS3 conf, ckBackendCount conf, ckRAM conf, ckEncKey conf,
        ckAgeCount conf, ckAgeID env conf, ckAgeSSH env conf, ckProm conf,
        ckClients env conf]).findSome? id :=
  validate_eq_findSome env conf

/-! ## C8: the listening-port check -/

/-- C8. The port check accepts exactly the ports in `[0, 65535]`: a negative
port makes `Config.Validate` fail with the "must be positive" error, a port
above 65535 with the "must be below 65535" error, and every port in range
passes the port check. -/
theorem c8_port_range (env : Env) (conf : Config) :
    (ckPort conf = none ↔ 0 ≤ conf.listenPort ∧ conf.listenPort ≤ 65535) ∧
    (conf.listenPort < 0 →
      Config.Validate env conf = some ConfErr.portNegative) ∧
    (65535 < conf.listenPort →
      Config.Validate env conf = some ConfErr.portTooHigh) := by
  refine ⟨?_, ?_, ?_⟩
  · unfold ckPort
    split_ifs with h1 h2 <;> simp <;> omega
  · intro h
    have hp : ckPort conf = some ConfErr.portNegative := by simp [ckPort, h]
    simp [Config.Validate, hp, orE]
  · intro h
    have h0 : ¬ conf.listenPort < 0 := by omega
    have hp : ckPort conf = some ConfErr.portTooHigh := by simp [ckPort, h, h0]
    simp [Config.Validate, hp, orE]

/-- An environment in which every external operation succeeds but no file
has contents; enough for the checks that precede the client section. -/
def envPlain : Env :=
  ⟨fun _ => true, fun _ => true, fun _ => none, fun _ => none,
   fun _ => true, fun _ => true⟩

/-- A configuration template with the given listening port. -/
def confPort (p : Int) : Config :=
  ⟨p, false, 1, "c", "k", [], [], [], "", "", [], [], false, "", ""⟩

/-- Witness for C8 at concrete ports −1, 70000 and 443. -/
theorem c8_witness :
    Config.Validate envPlain (confPort (-1)) = some ConfErr.portNegative ∧
    Config.Validate envPlain (confPort 70000) = some ConfErr.portTooHigh ∧
    ckPort (confPort 443) = none :=
  ⟨(c8_port_range envPlain (confPort (-1))).2.1 (by decide),
   (c8_port_range envPlain (confPort 70000)).2.2 (by decide),
   (c8_port_range envPlain (confPort 443)).1.mpr (by decide)⟩

lemma findSome_id_singleton (x : Option ConfErr) :
    ([x]).findSome? id = x := by
  cases x <;> simp

/-! ## C4: at least one backend -/

/-- C4. With zero backends configured across all three protocol variants and
all earlier checks passing, `Config.Validate` fails with the
"needs at least one backend" error. -/
theorem c4_no_backends (env : Env) (conf : Config)
    (hpre : prefixOk env conf 3)
    (hs : conf.swiftBackends = []) (hg : conf.gcsBackends = [])
    (h3 : conf.s3Backends = []) :
    Config.Validate env conf = some ConfErr.noBackends := by
  have e1 : ckSwift conf = none := by simp [ckSwift, hs]
  have e2 : ckGCS conf = none := by simp [ckGCS, hg]
  have e3 : ckS3 conf = none := by simp [ckS3, h3]
  have e4 : ckBackendCount conf = some ConfErr.noBackends := by
    simp [ckBackendCount, hs, hg, h3]
  rw [validate_eq_drop env conf 3 hpre]
  simp [checks, e1, e2, e3, e4, List.findSome?_cons]

/-- Witness for C4: a backendless configuration that passes the port and
TLS checks. -/
theorem c4_witness :
    Config.Validate envPlain (confPort 443) = some ConfErr.noBackends :=
  c4_no_backends envPlain (confPort 443) (by decide) rfl rfl rfl

/-! ## C6: the deprecated encryption key -/

/-- C6. If the deprecated `encryptionkey` field is non-empty and all earlier
checks pass, `Config.Validate` fails with the deprecation error — its mere
presence is the error. -/
theorem c6_deprecated_enckey (env : Env) (conf : Config)
    (hpre : prefixOk env conf 8) (henc : conf.encryptionKey ≠ "") :
    Config.Validate env conf = some ConfErr.encryptionKeyDeprecated := by
  have e : ckEncKey conf = some ConfErr.encryptionKeyDeprecated := by
    simp [ckEncKey, henc]
  rw [validate_eq_drop env conf 8 hpre]
  simp [checks, e, List.findSome?_cons]

/-- A configuration whose first 8 checks pass, with the given deprecated
key and age recipient lists. -/
def confEnc (key : String) (ids ssh : List String) : Config :=
  ⟨443, false, 50, "c", "k", [⟨"sw1", none⟩], [], [], "clients.yml",
   key, ids, ssh, false, "", ""⟩

/-- Witness for C6 at a concrete configuration carrying the old key. -/
theorem c6_witness :
    Config.Validate envPlain (confEnc "OLDKEY" ["a1"] []) =
      some ConfErr.encryptionKeyDeprecated :=
  c6_deprecated_enckey envPlain (confEnc "OLDKEY" ["a1"] []) (by decide)
    (by decide)

/-! ## C7: the recipient checks -/

/-- C7. With all earlier checks passing, `Config.Validate` requires at least
one age recipient (zero recipients produce the "configure at least one age
encryption key" error), fails whenever some entry of either recipient list
does not parse with its list's parser, and conversely can only succeed when
some recipient is configured and every entry of both lists parses. -/
theorem c7_recipients (env : Env) (conf : Config)
    (hpre : prefixOk env conf 9) :
    (conf.ageID = [] ∧ conf.ageSSH = [] →
      Config.Validate env conf = some ConfErr.noAgeKeys) ∧
    ((∃ r ∈ conf.ageID, env.ageIDOk r = false) ∨
        (∃ r ∈ conf.ageSSH, env.ageSSHOk r = false) →
      Config.Validate env conf ≠ none) ∧
    (Config.Validate env conf = none →
      conf.ageID.length + conf.ageSSH.length ≠ 0 ∧
      (∀ r ∈ conf.ageID, env.ageIDOk r = true) ∧
      (∀ r ∈ conf.ageSSH, env.ageSSHOk r = true)) := by
  have key : Config.Validate env conf = none →
      conf.ageID.length + conf.ageSSH.length ≠ 0 ∧
      (∀ r ∈ conf.ageID, env.ageIDOk r = true) ∧
      (∀ r ∈ conf.ageSSH, env.ageSSHOk r = true) := by
    intro hv
    have hall := (validate_eq_none_iff env conf).mp hv
    have hcount := hall (ckAgeCount conf) (by simp [checks])
    have hid := hall (ckAgeID env conf) (by simp [checks])
    have hssh := hall (ckAgeSSH env conf) (by simp [checks])
    refine ⟨?_, ?_, ?_⟩
    · intro h0
      simp [ckAgeCount, h0] at hcount
    · intro r hr
      have := (List.findSome?_eq_none_iff.mp hid) r hr
      by_cases hok : env.ageIDOk r = true
      · exact hok
      · simp [hok] at this
    · intro r hr
      have := (List.findSome?_eq_none_iff.mp hssh) r hr
      by_cases hok : env.ageSSHOk r = true
      · exact hok
      · simp [hok] at this
  refine ⟨?_, ?_, key⟩
  · rintro ⟨hid, hssh⟩
    have e : ckAgeCount conf = some ConfErr.noAgeKeys := by
      simp [ckAgeCount, hid, hssh]
    rw [validate_eq_drop env conf 9 hpre]
    simp [checks, e, List.findSome?_cons]
  · intro hbad hv
    obtain ⟨_, hid, hssh⟩ := key hv
    rcases hbad with ⟨r, hr, hf⟩ | ⟨r, hr, hf⟩
    · rw [hid r hr] at hf
      cases hf
    · rw [hssh r hr] at hf
      cases hf

/-- An environment that accepts every file but rejects every age recipient
string. -/
def envNoAge : Env :=
  ⟨fun _ => true, fun _ => true, fun _ => none, fun _ => none,
   fun _ => false, fun _ => false⟩

/-- Witness for C7: zero recipients error; an unparseable recipient makes
validation fail. -/
theorem c7_witness :
    Config.Validate envPlain (confEnc "" [] []) = some ConfErr.noAgeKeys ∧
    Config.Validate envNoAge (confEnc "" ["bad"] []) ≠ none :=
  ⟨(c7_recipients envPlain (confEnc "" [] []) (by decide)).1 ⟨rfl, rfl⟩,
   (c7_recipients envNoAge (confEnc "" ["bad"] []) (by decide)).2.1
     (Or.inl ⟨"bad", by decide, rfl⟩)⟩

/-! ## C5: the Prometheus Basic-Auth checks -/

/-- The given configuration with both Prometheus credentials replaced. -/
def setPromCreds (conf : Config) (u p : String) : Config :=
  { conf with prometheusAuthUser := u, prometheusAuthPass := p }

/-- C5. When metrics are enabled (and the earlier checks pass), a
10-character auth username makes `Config.Validate` fail with the username
format error, while a 24-character alphanumeric username/password pair
passes the whole metrics block (validation proceeds to the client-roster
section); when metrics are disabled, the credentials are not checked at all:
`Config.Validate` is unchanged under any replacement of them. -/
theorem c5_metrics_auth (env : Env) (conf : Config) (u p : String) :
    (prefixOk env conf 12 → conf.prometheusEnabled = true →
      ((conf.prometheusAuthUser.length = 10 →
          Config.Validate env conf = some ConfErr.promUserBadFormat) ∧
       (conf.prometheusAuthUser.length = 24 →
        (∀ ch ∈ conf.prometheusAuthUser.data, (ch.isAlpha || ch.isDigit) = true) →
        conf.prometheusAuthPass.length = 24 →
        (∀ ch ∈ conf.prometheusAuthPass.data, (ch.isAlpha || ch.isDigit) = true) →
          ckProm conf = none ∧
          Config.Validate env conf = ckClients env conf))) ∧
    (conf.prometheusEnabled = false →
      Config.Validate env (setPromCreds conf u p) =
        Config.Validate env conf) := by
  constructor
  · intro hpre hen
    constructor
    · intro hlen
      have hne : conf.prometheusAuthUser ≠ "" := by
        intro h
        rw [h] at hlen
        simp at hlen
      have hbad : ¬ promCredOk conf.prometheusAuthUser = true := by
        simp [promCredOk, hlen]
      have e : ckProm conf = some ConfErr.promUserBadFormat := by
        simp [ckProm, hen, hne, hbad]
      rw [validate_eq_drop env conf 12 hpre]
      simp [checks, e, List.findSome?_cons]
    · intro hul hua hpl hpa
      have hune : conf.prometheusAuthUser ≠ "" := by
        intro h
        rw [h] at hul
        simp at hul
      have hpne : conf.prometheusAuthPass ≠ "" := by
        intro h
        rw [h] at hpl
        simp at hpl
      have hu : promCredOk conf.prometheusAuthUser = true := by
        simp [promCredOk, hul, List.all_eq_true]
        simpa using hua
      have hp : promCredOk conf.prometheusAuthPass = true := by
        simp [promCredOk, hpl, List.all_eq_true]
        simpa using hpa
      have e : ckProm conf = none := by
        simp [ckProm, hen, hune, hpne, hu, hp]
      refine ⟨e, ?_⟩
      rw [validate_eq_drop env conf 12 hpre]
      simp [checks, e, List.findSome?_cons]
      cases hc : ckClients env conf <;> simp [hc]
  · intro hdis
    have h1 : ckProm (setPromCreds conf u p) = none := by
      simp [ckProm, setPromCreds, hdis]
    have h2 : ckProm conf = none := by
      simp [ckProm, hdis]
    simp only [Config.Validate, h1, h2]
    rfl

/-- A configuration whose first 12 checks pass, with metrics enabled as
given and the given Basic-Auth credentials. -/
def confProm (en : Bool) (user pass : String) : Config :=
  ⟨443, false, 50, "c", "k", [⟨"sw1", none⟩], [], [], "clients.yml",
   "", ["a1"], [], en, user, pass⟩

/-- Witness for C5: a 10-character username fails, a 24-character
alphanumeric pair passes the metrics block, and with metrics disabled the
credentials are irrelevant. -/
theorem c5_witness :
    Config.Validate envPlain (confProm true "0123456789" "x") =
      some ConfErr.promUserBadFormat ∧
    ckProm (confProm true "abcdefghij0123456789ABCD" "ABCD0123456789abcdefghij") =
      none ∧
    Config.Validate envPlain (setPromCreds (confProm false "a" "b") "u2" "p2") =
      Config.Validate envPlain (confProm false "a" "b") :=
  ⟨((c5_metrics_auth envPlain (confProm true "0123456789" "x") "" "").1
      (by decide) rfl).1 (by decide),
   (((c5_metrics_auth envPlain
        (confProm true "abcdefghij0123456789ABCD" "ABCD0123456789abcdefghij")
        "" "").1 (by decide) rfl).2 (by decide) (by decide) (by decide)
        (by decide)).1,
   (c5_metrics_auth envPlain (confProm false "a" "b") "u2" "p2").2 rfl⟩

/-! ## C1: the per-client validity conditions -/

/-- The client-validity conditions exactly as the claim states them: name
non-empty; password empty or of (byte) length in [32,128]; at least one of
password / IPv4 list / IPv6 list non-empty; and every listed address string
parses as an IP address. Declared verbatim from the claim for comparison
with `ClientConfig.Validate`. -/
def claimClientConds (c : ClientConfig) : Prop :=
  c.clientName ≠ "" ∧
  (c.password = "" ∨
    (32 ≤ c.password.utf8ByteSize ∧ c.password.utf8ByteSize ≤ 128)) ∧
  (c.password ≠ "" ∨ c.ipv4Addr ≠ [] ∨ c.ipv6Addr ≠ []) ∧
  (∀ a ∈ c.ipv4Addr ++ c.ipv6Addr, parseIPGo a ≠ none)

instance (c : ClientConfig) : Decidable (claimClientConds c) :=
  inferInstanceAs (Decidable (_ ∧ _))

/-- The extra condition `ClientConfig.Validate` imposes on the IPv4 list:
every entry must render, through `IP.String`, with a `'.'`. -/
def v4ListTyped (c : ClientConfig) : Prop :=
  ∀ a ∈ c.ipv4Addr, (ipCharsOpt (parseIPGo a)).contains '.' = true

instance (c : ClientConfig) : Decidable (v4ListTyped c) :=
  inferInstanceAs
    (Decidable (∀ a ∈ c.ipv4Addr, (ipCharsOpt (parseIPGo a)).contains '.' = true))

/-- The extra condition `ClientConfig.Validate` imposes on the IPv6 list:
every entry must render with a `':'` and without a `'.'`. -/
def v6ListTyped (c : ClientConfig) : Prop :=
  ∀ a ∈ c.ipv6Addr,
    (ipCharsOpt (parseIPGo a)).contains ':' = true ∧
    (ipCharsOpt (parseIPGo a)).contains '.' = false

instance (c : ClientConfig) : Decidable (v6ListTyped c) :=
  inferInstanceAs
    (Decidable (∀ a ∈ c.ipv6Addr,
      (ipCharsOpt (parseIPGo a)).contains ':' = true ∧
      (ipCharsOpt (parseIPGo a)).contains '.' = false))

/-- Counterexample to C1 as stated: the client `⟨"a", ["::1"], [], ""⟩`
meets every condition the claim lists — the name is non-empty, the password
is empty, the IPv4 list is non-empty, and `"::1"` parses as an IP address —
yet `ClientConfig.Validate` rejects it, because config.go:295–299 also
requires every entry of the IPv4 list to render as a dotted quad. -/
theorem c1_counterexample :
    claimClientConds ⟨"a", ["::1"], [], ""⟩ ∧
      ClientConfig.Validate ⟨"a", ["::1"], [], ""⟩ ≠ none := by
  decide

lemma orC_eq_none_iff (a b : Option ClientErr) :
    orC a b = none ↔ a = none ∧ b = none := by
  cases a <;> simp [orC]

lemma ite_some_none_eq_none {α : Type} {P : Prop} [Decidable P] {e : α} :
    (if P then some e else none) = none ↔ ¬ P := by
  split_ifs with h <;> simp [h]

/-- The final password/auth-method checks of `ClientConfig.Validate`
(config.go:306–317), characterized. -/
lemma clientTail_eq_none_iff (c : ClientConfig) :
    (if c.password = "" ∧ c.IPv4.length = 0 ∧ c.IPv6.length = 0 then
       some ClientErr.noAuthMethod
     else if c.password.utf8ByteSize < 32 ∧ c.password ≠ "" then
       some ClientErr.passwordTooShort
     else if c.password.utf8ByteSize > 128 then some ClientErr.passwordTooLong
     else none) = none ↔
      (c.password ≠ "" ∨ c.ipv4Addr ≠ [] ∨ c.ipv6Addr ≠ []) ∧
      (c.password = "" ∨
        (32 ≤ c.password.utf8ByteSize ∧ c.password.utf8ByteSize ≤ 128)) := by
  have hempty : c.password = "" → c.password.utf8ByteSize = 0 := by
    intro h
    rw [h]
    decide
  unfold ClientConfig.IPv4 ClientConfig.IPv6
  simp only [List.length_map, List.length_eq_zero]
  split_ifs with p1 p2 p3
  · simp only [reduceCtorEq, false_iff]
    rintro ⟨hor, -⟩
    rcases hor with h | h | h
    · exact h p1.1
    · exact h p1.2.1
    · exact h p1.2.2
  · simp only [reduceCtorEq, false_iff]
    rintro ⟨-, hor⟩
    rcases hor with h | ⟨h32, -⟩
    · exact p2.2 h
    · omega
  · simp only [reduceCtorEq, false_iff]
    rintro ⟨-, hor⟩
    rcases hor with h | ⟨-, h128⟩
    · have := hempty h
      omega
    · omega
  · simp only [true_iff]
    constructor
    · by_cases hpw : c.password = ""
      · by_cases h4 : c.ipv4Addr = []
        · refine Or.inr (Or.inr fun h6 => ?_)
          exact p1 ⟨hpw, h4, h6⟩
        · exact Or.inr (Or.inl h4)
      · exact Or.inl hpw
    · by_cases hpw : c.password = ""
      · exact Or.inl hpw
      · refine Or.inr ⟨?_, ?_⟩
        · by_contra hlt
          push_neg at hlt
          exact p2 ⟨hlt, hpw⟩
        · omega

/-- C1, amended. `ClientConfig.Validate` succeeds iff the conditions the
claim lists hold **and additionally** every IPv4-list entry renders as a
dotted quad and every IPv6-list entry renders with a colon and no dot
(config.go:294–304), which the claim omits. -/
theorem c1_amended (c : ClientConfig) :
    ClientConfig.Validate c = none ↔
      claimClientConds c ∧ v4ListTyped c ∧ v6ListTyped c := by
  by_cases hname : c.clientName = ""
  · constructor
    · intro h
      rw [ClientConfig.Validate, if_pos hname] at h
      cases h
    · rintro ⟨⟨h1, -⟩, -⟩
      exact absurd hname h1
  · rw [ClientConfig.Validate, if_neg hname]
    rw [orC_eq_none_iff, orC_eq_none_iff, orC_eq_none_iff]
    rw [clientTail_eq_none_iff]
    unfold claimClientConds v4ListTyped v6ListTyped
    unfold ClientConfig.IPv4 ClientConfig.IPv6
    simp only [List.findSome?_eq_none_iff, List.forall_mem_append,
      List.forall_mem_map, ite_some_none_eq_none, Option.isNone_iff_eq_none,
      not_or, not_not, Bool.not_eq_true, Bool.not_eq_false, ne_eq]
    tauto

/-- Witness for C1-amended: a fully valid client. -/
theorem c1_witness :
    ClientConfig.Validate ⟨"alice", ["1.2.3.4"], ["::1"], ""⟩ = none :=
  (c1_amended ⟨"alice", ["1.2.3.4"], ["::1"], ""⟩).mpr (by decide)

/-! ## C9: `ClientConfig.Name` is a mutating accessor -/

lemma orC_ne {a b : Option ClientErr} {e : ClientErr}
    (ha : a ≠ some e) (hb : b ≠ some e) : orC a b ≠ some e := by
  cases a <;> simp_all [orC]

/-- Once the name is non-empty, no later check of `ClientConfig.Validate`
can produce the `noName` error. -/
lemma validate_ne_noName (c : ClientConfig) (h : c.clientName ≠ "") :
    ClientConfig.Validate c ≠ some ClientErr.noName := by
  rw [ClientConfig.Validate, if_neg h]
  refine orC_ne ?_ (orC_ne ?_ (orC_ne ?_ ?_))
  · intro hm
    obtain ⟨ip, -, hip⟩ := List.exists_of_findSome?_eq_some hm
    by_cases hn : ip.isNone <;> simp [hn] at hip
  · intro hm
    obtain ⟨v4, -, hv⟩ := List.exists_of_findSome?_eq_some hm
    by_cases hn : (ipCharsOpt v4).contains '.' <;> simp [hn] at hv
  · intro hm
    obtain ⟨v6, -, hv⟩ := List.exists_of_findSome?_eq_some hm
    by_cases hn : ¬ (ipCharsOpt v6).contains ':' ∨ (ipCharsOpt v6).contains '.' <;>
      simp [hn] at hv
  · split_ifs <;> simp

/-- C9. `ClientConfig.Name` always returns a non-empty string, but is not a
pure accessor: on an empty configured name it overwrites the `ClientName`
field with `"Unnamed Client"` (leaving every other field unchanged), and on
a non-empty name it changes nothing; after the call the receiver always
passes the non-empty-name check of `ClientConfig.Validate` (which can no
longer return the `noName` error). -/
theorem c9_name_mutates (c : ClientConfig) :
    c.Name.1 ≠ "" ∧
    (c.clientName = "" →
      c.Name.1 = "Unnamed Client" ∧
      c.Name.2 = { c with clientName := "Unnamed Client" }) ∧
    (c.clientName ≠ "" → c.Name.1 = c.clientName ∧ c.Name.2 = c) ∧
    c.Name.2.ipv4Addr = c.ipv4Addr ∧ c.Name.2.ipv6Addr = c.ipv6Addr ∧
    c.Name.2.password = c.password ∧
    ClientConfig.Validate c.Name.2 ≠ some ClientErr.noName := by
  by_cases h : c.clientName = ""
  · have h1 : c.Name = ("Unnamed Client", { c with clientName := "Unnamed Client" }) := by
      simp [ClientConfig.Name, h]
    rw [h1]
    exact ⟨by show ("Unnamed Client" : String) ≠ ""; decide,
      fun _ => ⟨rfl, rfl⟩, fun hneq => absurd h hneq, rfl, rfl,
      rfl, validate_ne_noName _ (by show ("Unnamed Client" : String) ≠ ""; decide)⟩
  · have h1 : c.Name = (c.clientName, c) := by
      simp [ClientConfig.Name, h]
    rw [h1]
    exact ⟨h, fun he => absurd he h, fun _ => ⟨rfl, rfl⟩, rfl, rfl, rfl,
      validate_ne_noName c h⟩

/-- Witness for C9: a client with an empty name gets renamed in place. -/
theorem c9_witness :
    (ClientConfig.Name ⟨"", ["1.2.3.4"], [], ""⟩).1 = "Unnamed Client" ∧
    (ClientConfig.Name ⟨"", ["1.2.3.4"], [], ""⟩).2 =
      ⟨"Unnamed Client", ["1.2.3.4"], [], ""⟩ :=
  (c9_name_mutates ⟨"", ["1.2.3.4"], [], ""⟩).2.1 rfl

/-! ## The duplicate checks of config.go:198–224, characterized -/

/-- The `Name()` values of a roster, in order. -/
def rosterNames (cs : List ClientConfig) : List String :=
  cs.map fun c => c.Name.1

/-- The non-empty passwords of a roster, in order (empty passwords are
never entered into `passSet`). -/
def rosterPasswords (cs : List ClientConfig) : List String :=
  cs.filterMap fun c => if c.password = "" then none else some c.password

/-- The canonical renderings of all addresses of a roster, in the order the
duplicate-IP loop visits them: per client, IPv6 list first, then IPv4. -/
def rosterIPs (cs : List ClientConfig) : List (List Char) :=
  cs.flatMap canonIPs

lemma not_mem_iff_forall_ne {α : Type} (a : α) (l : List α) :
    a ∉ l ↔ ∀ x ∈ l, x ≠ a :=
  ⟨fun h _ hx heq => h (heq ▸ hx), fun h ha => h a ha rfl⟩

lemma ipDupLoop_ok_mem {l acc res : List (List Char)}
    (h : ipDupLoop l acc = .ok res) : ∀ x, x ∈ res ↔ x ∈ l ∨ x ∈ acc := by
  induction l generalizing acc with
  | nil =>
    rw [ipDupLoop] at h
    cases h
    simp
  | cons ip rest ih =>
    rw [ipDupLoop] at h
    split_ifs at h with hmem
    intro x
    rw [ih h x]
    simp only [List.mem_cons]
    tauto

lemma ipDupLoop_ok_iff (l : List (List Char)) (acc : List (List Char)) :
    (∃ res, ipDupLoop l acc = .ok res) ↔ l.Nodup ∧ ∀ x ∈ l, x ∉ acc := by
  induction l generalizing acc with
  | nil => simp [ipDupLoop]
  | cons ip rest ih =>
    by_cases hmem : ip ∈ acc
    · simp only [ipDupLoop, if_pos hmem]
      constructor
      · rintro ⟨res, hres⟩
        cases hres
      · rintro ⟨-, hall⟩
        exact absurd hmem (hall ip (by simp))
    · simp only [ipDupLoop, if_neg hmem]
      rw [ih]
      constructor
      · rintro ⟨hnd, hall⟩
        have hnotin : ip ∉ rest := fun hin =>
          (by simpa using hall ip hin : ip ≠ ip ∧ ip ∉ acc).1 rfl
        refine ⟨List.nodup_cons.mpr ⟨hnotin, hnd⟩, ?_⟩
        intro x hx
        rcases List.mem_cons.mp hx with rfl | hx
        · exact hmem
        · exact (by simpa using hall x hx : x ≠ ip ∧ x ∉ acc).2
      · rintro ⟨hnd, hall⟩
        obtain ⟨hnotin, hnd⟩ := List.nodup_cons.mp hnd
        refine ⟨hnd, ?_⟩
        intro x hx
        simp only [List.mem_cons, not_or]
        exact ⟨fun heq => hnotin (heq ▸ hx), hall x (by simp [hx])⟩

lemma rosterPasswords_cons (c : ClientConfig) (cs : List ClientConfig) :
    rosterPasswords (c :: cs) =
      if c.password = "" then rosterPasswords cs
      else c.password :: rosterPasswords cs := by
  unfold rosterPasswords
  rw [List.filterMap_cons]
  split_ifs with h <;> simp [h]

/-- The duplicate loop of config.go:202–224 succeeds iff the names, the
non-empty passwords and the canonical IP renderings of the remaining roster
are each pairwise distinct and fresh with respect to the accumulated sets. -/
lemma dupLoop_eq_none_iff (cs : List ClientConfig) :
    ∀ (i : Nat) (ns ps : List String) (ips : List (List Char)),
      dupLoop i cs ns ps ips = none ↔
        ((rosterNames cs).Nodup ∧ ∀ n ∈ rosterNames cs, n ∉ ns) ∧
        ((rosterPasswords cs).Nodup ∧ ∀ q ∈ rosterPasswords cs, q ∉ ps) ∧
        ((rosterIPs cs).Nodup ∧ ∀ x ∈ rosterIPs cs, x ∉ ips) := by
  induction cs with
  | nil =>
    intro i ns ps ips
    simp [dupLoop, rosterNames, rosterPasswords, rosterIPs]
  | cons c cs ih =>
    intro i ns ps ips
    have rn : rosterNames (c :: cs) = c.Name.1 :: rosterNames cs := rfl
    have rp := rosterPasswords_cons c cs
    have ri : rosterIPs (c :: cs) = canonIPs c ++ rosterIPs cs := by
      simp [rosterIPs]
    rw [rn, ri, rp, dupLoop]
    by_cases h1 : c.Name.1 ∈ ns
    · rw [if_pos h1]
      simp only [reduceCtorEq, false_iff]
      rintro ⟨⟨-, hall⟩, -⟩
      exact hall c.Name.1 (by simp) h1
    · rw [if_neg h1]
      by_cases h2 : c.password ≠ "" ∧ c.password ∈ ps
      · rw [if_pos h2]
        simp only [reduceCtorEq, false_iff]
        rintro ⟨-, ⟨-, hall⟩, -⟩
        refine absurd h2.2 (hall c.password ?_)
        rw [if_neg h2.1]
        simp
      · rw [if_neg h2]
        cases hip : ipDupLoop (canonIPs c) ips with
        | error e =>
          simp only [reduceCtorEq, false_iff]
          rintro ⟨-, -, hnd, hall⟩
          have hok : ∃ res, ipDupLoop (canonIPs c) ips = .ok res := by
            rw [ipDupLoop_ok_iff]
            refine ⟨(List.nodup_append.mp hnd).1, ?_⟩
            intro x hx
            exact hall x (List.mem_append.mpr (Or.inl hx))
          obtain ⟨res, hres⟩ := hok
          rw [hip] at hres
          cases hres
        | ok ips1 =>
          rw [ih]
          have hcfacts := (ipDupLoop_ok_iff (canonIPs c) ips).mp ⟨ips1, hip⟩
          have hmem1 := ipDupLoop_ok_mem hip
          constructor
          · rintro ⟨⟨hndN, hallN⟩, ⟨hndP, hallP⟩, ⟨hndI, hallI⟩⟩
            refine ⟨⟨List.nodup_cons.mpr ⟨?_, hndN⟩, ?_⟩, ⟨?_, ?_⟩, ⟨?_, ?_⟩⟩
            · rw [not_mem_iff_forall_ne]
              intro n hn
              exact fun heq =>
                (by simpa using hallN n hn : n ≠ c.Name.1 ∧ n ∉ ns).1 heq
            · intro n hn
              rcases List.mem_cons.mp hn with rfl | hn
              · exact h1
              · exact (by simpa using hallN n hn : n ≠ c.Name.1 ∧ n ∉ ns).2
            · by_cases hpw : c.password = ""
              · rwa [if_pos hpw]
              · rw [if_neg hpw]
                refine List.nodup_cons.mpr ⟨?_, hndP⟩
                rw [not_mem_iff_forall_ne]
                intro q hq
                have := hallP q hq
                rw [if_neg hpw] at this
                exact fun heq => (by simpa using this : q ≠ c.password ∧ q ∉ ps).1 heq
              -- freshness of passwords
            · intro q hq
              by_cases hpw : c.password = ""
              · rw [if_pos hpw] at hq
                have := hallP q hq
                rw [if_pos hpw] at this
                exact this
              · rw [if_neg hpw] at hq
                rcases List.mem_cons.mp hq with rfl | hq
                · intro hin
                  exact h2 ⟨hpw, hin⟩
                · have := hallP q hq
                  rw [if_neg hpw] at this
                  exact (by simpa using this : q ≠ c.password ∧ q ∉ ps).2
            · rw [List.nodup_append]
              refine ⟨hcfacts.1, hndI, ?_⟩
              rw [List.disjoint_right]
              intro x hx
              have := hallI x hx
              rw [hmem1 x] at this
              exact fun hin => this (Or.inl hin)
            · intro x hx
              rcases List.mem_append.mp hx with hx | hx
              · exact hcfacts.2 x hx
              · have := hallI x hx
                rw [hmem1 x] at this
                exact fun hin => this (Or.inr hin)
          · rintro ⟨⟨hndN, hallN⟩, ⟨hndP, hallP⟩, ⟨hndI, hallI⟩⟩
            obtain ⟨hheadN, hndN⟩ := List.nodup_cons.mp hndN
            refine ⟨⟨hndN, ?_⟩, ⟨?_, ?_⟩, ⟨?_, ?_⟩⟩
            · intro n hn
              simp only [List.mem_cons, not_or]
              exact ⟨fun heq => hheadN (heq ▸ hn), hallN n (by simp [hn])⟩
            · by_cases hpw : c.password = ""
              · rwa [if_pos hpw] at hndP
              · rw [if_neg hpw] at hndP
                exact (List.nodup_cons.mp hndP).2
            · intro q hq
              by_cases hpw : c.password = ""
              · rw [if_pos hpw]
                have := hallP q (by rwa [if_pos hpw])
                exact this
              · rw [if_neg hpw]
                rw [if_neg hpw] at hndP
                obtain ⟨hheadP, -⟩ := List.nodup_cons.mp hndP
                simp only [List.mem_cons, not_or]
                refine ⟨fun heq => hheadP (heq ▸ hq), ?_⟩
                exact hallP q (by rw [if_neg hpw]; simp [hq])
            · exact (List.nodup_append.mp hndI).2.1
            · intro x hx
              rw [hmem1 x]
              rintro (hin | hin)
              · have hdisj := (List.nodup_append.mp hndI).2.2
                exact (List.disjoint_right.mp hdisj hx) hin
              · exact hallI x (List.mem_append.mpr (Or.inr hx)) hin

/-- With every client individually valid, the per-client loop of
config.go:191–196 reports no error. -/
lemma clientsLoop_eq_none (cs : List ClientConfig) :
    ∀ i, (∀ c ∈ cs, c.Validate = none) → clientsLoop i cs = none := by
  induction cs with
  | nil => intro i _; rfl
  | cons c cs ih =>
    intro i h
    rw [clientsLoop, h c (by simp)]
    exact ih (i + 1) fun x hx => h x (by simp [hx])

/-- When the roster loads and every entry is individually valid, the whole
client-roster check reduces to the duplicate loop. -/
lemma ckClients_eq_dupLoop (env : Env) (conf : Config)
    (clients : List ClientConfig)
    (hload : loadClients env conf = some clients) (hne : clients ≠ [])
    (hvalid : ∀ c ∈ clients, c.Validate = none) :
    ckClients env conf = dupLoop 0 clients [] [] [] := by
  have hcf : ¬ conf.clientFile = "" := by
    intro h
    rw [loadClients, if_pos h] at hload
    cases hload
  rw [loadClients, if_neg hcf] at hload
  cases hrf : env.readFile conf.clientFile with
  | none =>
    rw [hrf] at hload
    cases hload
  | some fc =>
    rw [hrf] at hload
    change env.yamlClients fc = some clients at hload
    rw [ckClients, if_neg hcf]
    simp only [hrf, hload]
    rw [if_neg (by simp [List.length_eq_zero, hne])]
    rw [clientsLoop_eq_none clients 0 hvalid]
    rfl

/-! ## C2: roster-level uniqueness -/

/-- The cross-entry condition exactly as the claim words it: no (canonical)
IP address appears in more than one entry's lists. Duplicates *within* a
single entry's lists are not excluded by this condition. -/
def noIPSharedBetweenEntries (cs : List ClientConfig) : Prop :=
  (cs.map canonIPs).Pairwise fun a b => ∀ x ∈ a, x ∉ b

instance (cs : List ClientConfig) : Decidable (noIPSharedBetweenEntries cs) :=
  inferInstanceAs (Decidable ((cs.map canonIPs).Pairwise _))

/-- A client whose own IPv4 list contains the same address twice. -/
def carol : ClientConfig := ⟨"carol", ["1.2.3.4", "1.2.3.4"], [], ""⟩

/-- An environment whose client file decodes to the given roster and in
which every other external operation succeeds. -/
def envRoster (cs : List ClientConfig) : Env :=
  ⟨fun _ => true, fun _ => true, fun _ => some "clients-yaml",
   fun _ => some cs, fun _ => true, fun _ => true⟩

/-- Counterexample to C2 as stated: a roster consisting of the single,
individually valid client `carol` has pairwise-distinct names, distinct
non-empty passwords, and no IP shared *between* entries (there is only one
entry), and every other configured field is valid — yet `Config.Validate`
fails, because the duplicate-IP check also rejects a duplicate inside one
client's own list. -/
theorem c2_counterexample :
    (rosterNames [carol]).Nodup ∧ (rosterPasswords [carol]).Nodup ∧
    noIPSharedBetweenEntries [carol] ∧
    (∀ c ∈ [carol], ClientConfig.Validate c = none) ∧
    [carol] ≠ [] ∧
    prefixOk (envRoster [carol]) (confEnc "" ["a1"] []) 13 ∧
    loadClients (envRoster [carol]) (confEnc "" ["a1"] []) = some [carol] ∧
    Config.Validate (envRoster [carol]) (confEnc "" ["a1"] []) ≠ none := by
  decide

/-- If `Config.Validate` succeeds and the roster loads as `clients`, all
three duplicate dimensions are duplicate-free. -/
lemma validate_none_roster_nodups (env : Env) (conf : Config)
    (clients : List ClientConfig)
    (hv : Config.Validate env conf = none)
    (hload : loadClients env conf = some clients) :
    (rosterNames clients).Nodup ∧ (rosterPasswords clients).Nodup ∧
      (rosterIPs clients).Nodup := by
  have hall := (validate_eq_none_iff env conf).mp hv
  have hck : ckClients env conf = none := hall _ (by simp [checks])
  have hcf : ¬ conf.clientFile = "" := by
    intro h
    rw [ckClients, if_pos h] at hck
    cases hck
  rw [loadClients, if_neg hcf] at hload
  rw [ckClients, if_neg hcf] at hck
  cases hrf : env.readFile conf.clientFile with
  | none =>
    rw [hrf] at hload
    cases hload
  | some fc =>
    rw [hrf] at hload hck
    change env.yamlClients fc = some clients at hload
    simp only [hload] at hck
    split_ifs at hck with h0
    have hdup := ((orE_eq_none_iff _ _).mp hck).2
    have h := (dupLoop_eq_none_iff clients 0 [] [] []).mp hdup
    exact ⟨h.1.1, h.2.1.1, h.2.2.1⟩

/-- C2, amended. For a roster loaded from the client file: (error half) if
the `Name()` values, the non-empty passwords, or the canonical renderings of
**all** listed addresses — across the concatenation of every entry's
IPv6-then-IPv4 lists, duplicates within a single entry included — contain a
duplicate, `Config.Validate` fails; (success half) conversely, when the
thirteen preceding checks pass and the roster is non-empty with every entry
individually valid, pairwise distinctness in all three dimensions makes
`Config.Validate` succeed. (The claim's "no IP shared between entries" is
too weak: a duplicate inside one entry's own lists also fails.) -/
theorem c2_roster_uniqueness (env : Env) (conf : Config)
    (clients : List ClientConfig)
    (hload : loadClients env conf = some clients) :
    (Config.Validate env conf = none →
      (rosterNames clients).Nodup ∧ (rosterPasswords clients).Nodup ∧
        (rosterIPs clients).Nodup) ∧
    (prefixOk env conf 13 → clients ≠ [] →
      (∀ c ∈ clients, c.Validate = none) →
      (rosterNames clients).Nodup → (rosterPasswords clients).Nodup →
      (rosterIPs clients).Nodup →
      Config.Validate env conf = none) := by
  constructor
  · intro hv
    exact validate_none_roster_nodups env conf clients hv hload
  · intro hpre hne hvalid hn hp hi
    rw [validate_eq_drop env conf 13 hpre]
    have hd : (checks env conf).drop 13 = [ckClients env conf] := rfl
    rw [hd, findSome_id_singleton]
    rw [ckClients_eq_dupLoop env conf clients hload hne hvalid]
    rw [dupLoop_eq_none_iff]
    simp [hn, hp, hi]

/-- Two distinct, individually valid clients with disjoint addresses. -/
def alice : ClientConfig := ⟨"alice", ["1.2.3.4"], [], ""⟩

/-- See `alice`. -/
def bob : ClientConfig := ⟨"bob", [], ["::1"], ""⟩

/-- Witness for C2-amended: a two-client roster with distinct names,
passwords and addresses validates. -/
theorem c2_witness :
    Config.Validate (envRoster [alice, bob]) (confEnc "" ["a1"] []) = none :=
  (c2_roster_uniqueness (envRoster [alice, bob]) (confEnc "" ["a1"] [])
    [alice, bob] (by decide)).2 (by decide) (by decide) (by decide)
    (by decide) (by decide) (by decide)

/-! ## C10: the duplicate-IP check covers the whole concatenation -/

/-- C10. Whenever `Config.Validate` succeeds, the canonical string
renderings of every address across the concatenation of all loaded clients'
IPv6-then-IPv4 lists are pairwise distinct — so the duplicate-IP check is
stricter than cross-client uniqueness: a repeated address even within a
single client's own lists already makes validation fail. -/
theorem c10_canonical_ip_nodup (env : Env) (conf : Config)
    (clients : List ClientConfig)
    (hv : Config.Validate env conf = none)
    (hload : loadClients env conf = some clients) :
    (rosterIPs clients).Nodup :=
  (validate_none_roster_nodups env conf clients hv hload).2.2

/-- Witness for C10 on a concrete valid configuration. -/
theorem c10_witness : (rosterIPs [alice, bob]).Nodup :=
  c10_canonical_ip_nodup (envRoster [alice, bob]) (confEnc "" ["a1"] [])
    [alice, bob] (by decide) (by decide)

end Eldim
